import Mathlib

/-!
# HandyAI gesture classification core (src/app.js)

A shallow embedding of the classification core of `src/app.js`:

* the stability filter inside the `hands.onResults` handler (lines 390-440),
* `computeFeatures` (lines 191-227),
* `ruleBasedClassify` (lines 231-327),
* `classify` (lines 329-361).

JavaScript numbers are modelled by exact real numbers (`ℝ`), the value `Infinity`
of a score by the top element of `WithTop ℝ`, a thrown `TypeError` by `none`.
-/

namespace HandyAI

/-! ## Stability filter (`hands.onResults`, lines 390-440) -/

/-- The mutable variables the handler uses for debouncing: `stableLetter`,
`stableCount`, and the text shown in the `translated` element. -/
structure StabState where
  stableLetter : String
  stableCount : Nat
  display : String
  deriving DecidableEq, Repr

/-- What one call of the `onResults` handler sees, as far as the stability
filter is concerned: no hand in the frame, a hand while `recordingMode` is set,
or a hand whose classification result has the given `letter`. -/
inductive Frame where
  | noHand
  | recording
  | hand (letter : String)
  deriving DecidableEq, Repr

/-- Line 393: `const STABLE_REQUIRED = 5`. -/
def STABLE_REQUIRED : Nat := 5

/-- The blank display text, the em dash written on hand loss (line 436). -/
def blank : String := "—"

/-- Line 391-392 together with a blank display: the state before the first frame. -/
def initState : StabState := { stableLetter := "", stableCount := 0, display := blank }

/-- One call of the handler (lines 404-439), restricted to the stability variables. -/
def onResults (s : StabState) : Frame → StabState
  | Frame.hand letter =>
    let s1 : StabState :=
      if letter = s.stableLetter then
        { s with stableCount := s.stableCount + 1 }
      else
        { s with stableLetter := letter, stableCount := 1 }
    if s1.stableLetter ≠ "" ∧ s1.stableCount ≥ STABLE_REQUIRED then
      { s1 with display := s1.stableLetter }
    else s1
  | Frame.recording => s
  | Frame.noHand => { stableLetter := "", stableCount := 0, display := blank }

/-- The state after a sequence of frames. -/
def run (s : StabState) (fs : List Frame) : StabState := fs.foldl onResults s

/-- The text displayed after each frame of a sequence, in order. -/
def displays (s : StabState) : List Frame → List String
  | [] => []
  | f :: fs => (onResults s f).display :: displays (onResults s f) fs

/-- Frames that reach the stability filter (everything but recording-mode frames). -/
def Frame.filtered : Frame → Bool
  | Frame.recording => false
  | _ => true

/-! ## Geometry helpers -/

noncomputable section

open Classical

/-- One hand landmark, an object with fields `x`, `y`, `z`. -/
structure Landmark where
  x : ℝ
  y : ℝ
  z : ℝ

/-- The function `Math.hypot` at three arguments. -/
def hypot3 (a b c : ℝ) : ℝ := Real.sqrt (a * a + b * b + c * c)

/-- The local `dist` of lines 195 and 246: `Math.hypot(a.x-b.x, a.y-b.y, a.z-b.z)`. -/
def dist (a b : Landmark) : ℝ := hypot3 (a.x - b.x) (a.y - b.y) (a.z - b.z)

/-- The expression `v || 1e-6` of lines 197 and 247: zero is replaced by `1e-6`. -/
def orEps (v : ℝ) : ℝ := if v = 0 then 1e-6 else v

/-- The local `angle(a,b,c)` of lines 214-221. -/
def angle (a b c : Landmark) : ℝ :=
  let u : Landmark := ⟨a.x - b.x, a.y - b.y, a.z - b.z⟩
  let v : Landmark := ⟨c.x - b.x, c.y - b.y, c.z - b.z⟩
  let du := hypot3 u.x u.y u.z
  let dv := hypot3 v.x v.y v.z
  if du = 0 ∨ dv = 0 then 0
  else
    let dot := (u.x * v.x + u.y * v.y + u.z * v.z) / (du * dv)
    Real.arccos (max (-1) (min 1 dot))

/-! ## `computeFeatures` (lines 191-227) -/

/-- The function `computeFeatures`. The read `p(l)` of a landmark that is not in the
list throws a `TypeError` in the source; that is the result `none` here. -/
def computeFeatures (landmarks : List Landmark) : Option (List ℝ) := do
  let p := fun (l : Nat) => landmarks[l]?
  let wrist ← p 0
  let ref ← p 9
  let norm := orEps (dist wrist ref)
  let fingers := [4, 8, 12, 16, 20]
  let mids := [3, 7, 11, 15, 19]
  -- normalized tip-to-wrist distances
  let tipToWrist ← fingers.mapM (fun i => do
    let t ← p i
    pure (dist t wrist / norm))
  -- tip-to-mid distances (finger curl)
  let tipToMid ← (fingers.zip mids).mapM (fun im => do
    let t ← p im.1
    let m ← p im.2
    pure (dist t m / norm))
  -- selected inter-finger distances
  let pairs := [(8, 12), (8, 4), (12, 16), (16, 20), (4, 8)]
  let pairDists ← pairs.mapM (fun ab => do
    let a ← p ab.1
    let b ← p ab.2
    pure (dist a b / norm))
  -- angles at MCPs for index/middle/ring
  let triples := [(5, 6, 8), (9, 10, 12), (13, 14, 16)]
  let angles ← triples.mapM (fun abc => do
    let a ← p abc.1
    let b ← p abc.2.1
    let c ← p abc.2.2
    pure (angle a b c))
  pure (tipToWrist ++ tipToMid ++ pairDists ++ angles)

/-! ## `ruleBasedClassify` (lines 231-327) -/

/-- The helper `isExtended` of line 250, applied to the two landmarks it reads. -/
def isExtended (norm : ℝ) (tip mcp : Landmark) : Prop :=
  (mcp.y - tip.y) / norm > 0.03 ∨ dist tip mcp / norm > 0.2

/-- The helper `isCurled` of line 251, applied to the two landmarks it reads. -/
def isCurled (norm : ℝ) (tip pip : Landmark) : Prop :=
  dist tip pip / norm < 0.12

/-- The function `ruleBasedClassify`. The outer `Option` is `none` when a read of a
missing landmark throws; the inner one is the returned letter, `none` for `null`.
Both arguments are arrays here, so of the guard of line 237 only the length test
can fire. The unused locals (`indexDist`, `tipToMid`, `pairs`, `extCount`, ...) are
left out. -/
noncomputable def ruleBasedClassify (features : List ℝ) (landmarks : List Landmark) :
    Option (Option String) :=
  if features.length < 18 then some none else do
  let thumbDist := features.getD 0 0
  let p := fun (i : Nat) => landmarks[i]?
  let p0 ← p 0
  let p9 ← p 9
  let norm := orEps (dist p0 p9)
  let p5 ← p 5
  let p8 ← p 8
  let extendedIndex := isExtended norm p8 p5
  let p12 ← p 12
  let extendedMiddle := isExtended norm p12 p9
  let p13 ← p 13
  let p16 ← p 16
  let extendedRing := isExtended norm p16 p13
  let p17 ← p 17
  let p20 ← p 20
  let extendedPinky := isExtended norm p20 p17
  let extendedThumb := thumbDist > 0.55
  let thumbTip ← p 4
  let idxMCP := p5
  let midMCP := p9
  let ringMCP := p13
  let d_thumb_index_mcp := dist thumbTip idxMCP / norm
  let d_thumb_middle_mcp := dist thumbTip midMCP / norm
  let d_thumb_ring_mcp := dist thumbTip ringMCP / norm
  -- A/E/M/N/S/T (fist variants) -> all fingers curled
  if ¬extendedIndex ∧ ¬extendedMiddle ∧ ¬extendedRing ∧ ¬extendedPinky then
    if d_thumb_index_mcp < 0.08 ∧ d_thumb_middle_mcp < 0.08 then return some "A"
    if d_thumb_index_mcp < 0.12 ∧ thumbTip.y < p8.y then return some "S"
    if d_thumb_index_mcp < 0.06 ∧ thumbTip.y > p8.y then return some "T"
    if d_thumb_middle_mcp < d_thumb_ring_mcp ∧ d_thumb_middle_mcp < d_thumb_index_mcp then
      let smallCount : Nat := [p8, p12, p16].foldl
        (fun c t => c + (if dist t thumbTip / norm < 0.09 then 1 else 0)) 0
      if smallCount ≥ 3 then return some "M"
      if smallCount = 2 then return some "N"
    if d_thumb_index_mcp < 0.06 then return some "E"
  -- D: index extended alone
  if extendedIndex ∧ ¬extendedMiddle ∧ ¬extendedRing ∧ ¬extendedPinky then return some "D"
  -- I, L, U, V, W, Y
  if extendedPinky ∧ ¬extendedIndex ∧ ¬extendedMiddle ∧ ¬extendedRing then return some "I"
  if extendedIndex ∧ ¬extendedMiddle ∧ ¬extendedRing ∧ ¬extendedPinky ∧ extendedThumb then
    return some "L"
  if extendedIndex ∧ extendedMiddle ∧ ¬extendedRing ∧ ¬extendedPinky then
    let idxMidTipDist := dist p8 p12 / norm
    if idxMidTipDist < 0.18 then return some "U"
    return some "V"
  if extendedIndex ∧ extendedMiddle ∧ extendedRing ∧ ¬extendedPinky then return some "W"
  if extendedThumb ∧ extendedPinky ∧ ¬extendedIndex ∧ ¬extendedMiddle ∧ ¬extendedRing then
    return some "Y"
  -- C and O: distance thumb to finger tips
  let tips := [p8, p12, p16, p20]
  let dthumbTips := tips.map (fun t => dist thumbTip t / norm)
  let avgThumbTip : ℝ := dthumbTips.foldl (fun s d => s + d) (0 : ℝ) / (dthumbTips.length : ℝ)
  if avgThumbTip < 0.12 then return some "O"
  if avgThumbTip < 0.22 then return some "C"
  -- F: thumb-index touching
  if dist thumbTip p8 / norm < 0.08 then return some "F"
  -- R: crossed index+middle
  if extendedIndex ∧ extendedMiddle ∧ dist p8 p12 / norm < 0.08 then return some "R"
  -- X: index bent while others not extended
  let p7 ← p 7
  if isCurled norm p8 p7 ∧ ¬extendedMiddle ∧ ¬extendedRing ∧ ¬extendedPinky then
    return some "X"
  -- K/P/Q
  if extendedIndex ∧ extendedMiddle ∧ ¬extendedRing ∧ ¬extendedPinky then
    if p8.y > p12.y then return some "P"
    let p6 ← p 6
    if dist thumbTip p6 / norm < 0.12 then return some "K"
    return some "K"
  if extendedIndex ∧ ¬extendedMiddle ∧ ¬extendedRing ∧ ¬extendedPinky ∧ p8.y > thumbTip.y then
    return some "Q"
  return none

/-! ## `classify` (lines 329-361) -/

/-- The object returned by `classify`: a letter and a score. The score is a
number or `Infinity`, the top element here. -/
structure Prediction where
  letter : String
  score : WithTop ℝ

/-- The global `templates`: its entries (letter, samples) in the iteration order
of `Object.entries` and `Object.keys`. Every sample is an array of numbers, so
the filter `Array.isArray` of line 350 keeps all of them. -/
abbrev Templates := List (String × List (List ℝ))

/-- A loaded `tfModel`, as `classify` uses it: the feature vector goes in, and
`predict(...).arraySync()[0]` comes out, or the call throws (`none`). -/
abbrev TfModel := List ℝ → Option (List ℝ)

/-- The call `Math.max(...arr)`; it is `-Infinity`, the bottom element, on the empty array. -/
def mathMax (arr : List ℝ) : WithBot ℝ :=
  arr.foldl (fun (m : WithBot ℝ) (x : ℝ) => max m (x : WithBot ℝ)) ⊥

/-- The call `arr.indexOf(v)`: the first index holding `v`, `none` for the result `-1`. -/
def indexOf (arr : List ℝ) (v : WithBot ℝ) : Option Nat :=
  let i := arr.findIdx (fun (x : ℝ) => decide ((x : WithBot ℝ) = v))
  if i < arr.length then some i else none

/-- Line 338: the keys of `templates` that have at least one sample. -/
def sampleKeys (templates : Templates) : List String :=
  (templates.filter (fun e => decide (e.2.length ≠ 0))).map Prod.fst

/-- Lines 331-341: the model branch of `classify`. The result `none` means that
control falls through to line 343: no model, a throw caught at line 340, or a
falsy `keys[idx]`. -/
def modelStep (tfModel : Option TfModel) (templates : Templates) (features : List ℝ) :
    Option Prediction :=
  match tfModel with
  | none => none
  | some model =>
    match model features with
    | none => none
    | some arr =>
      match indexOf arr (mathMax arr) with
      | none => none
      | some idx =>
        match (sampleKeys templates)[idx]? with
        | none => none
        | some key =>
          if key ≠ "" then some { letter := key, score := ((1 - arr.getD idx 0 : ℝ) : WithTop ℝ) }
          else none

/-- Lines 352-354: the running mean of the samples of one letter. The first
sample is copied, every further sample is added index by index over the length
of the copy, and every entry is divided by the number of samples. A read past
the end of an array (`undefined` in the source) is taken as 0. -/
def meanOf (numericSamples : List (List ℝ)) : List ℝ :=
  match numericSamples with
  | [] => []
  | first :: rest =>
    let summed := rest.foldl
      (fun mean sample => (List.range mean.length).map (fun j => mean.getD j 0 + sample.getD j 0))
      first
    (List.range summed.length).map (fun j => summed.getD j 0 / (numericSamples.length : ℝ))

/-- Lines 355-356: the distance of `features` to `mean`, summed over the indices of `mean`. -/
def distTo (features mean : List ℝ) : ℝ :=
  Real.sqrt ((List.range mean.length).foldl
    (fun s k => s + (features.getD k 0 - mean.getD k 0) * (features.getD k 0 - mean.getD k 0)) 0)

/-- Lines 349-357: the body of the loop over the entries of `templates`. -/
def nnUpdate (features : List ℝ) (best : Prediction) (entry : String × List (List ℝ)) :
    Prediction :=
  let samples := entry.2
  if samples.length = 0 then best
  else
    let numericSamples := samples
    if numericSamples.length = 0 then best
    else
      let s := distTo features (meanOf numericSamples)
      if (s : WithTop ℝ) < best.score then { letter := entry.1, score := (s : WithTop ℝ) } else best

/-- Lines 347-358: the loop over the entries of `templates`. -/
def nnBest (features : List ℝ) (templates : Templates) : Prediction :=
  templates.foldl (nnUpdate features) { letter := "—", score := ⊤ }

/-- Lines 346-360: the nearest-neighbour step of `classify`. -/
def nearest (features : List ℝ) (templates : Templates) : Prediction :=
  let best := nnBest features templates
  if best.score > ((0.45 : ℝ) : WithTop ℝ) then { letter := "?", score := best.score }
  else { letter := best.letter, score := best.score }

/-- The function `classify`, with the globals `tfModel` and `templates` as
arguments. The result `none` means that the call throws (in `ruleBasedClassify`). -/
def classify (tfModel : Option TfModel) (templates : Templates) (features : List ℝ)
    (landmarks : List Landmark) : Option Prediction :=
  match modelStep tfModel templates features with
  | some res => some res
  | none =>
    match ruleBasedClassify features landmarks with
    | none => none
    | some (some rule) => some { letter := rule, score := 0 }
    | some none => some (nearest features templates)

/-! ## The specification's vocabulary -/

/-- The per-dimension arithmetic mean of a list of 18-element vectors, as the
specification words it: entry `j` is the sum of the entries `j` of the samples
divided by the number of samples. -/
def meanVec (samples : List (List ℝ)) : List ℝ :=
  (List.range 18).map (fun j => (samples.map (fun s => s.getD j 0)).sum / (samples.length : ℝ))

/-- The Euclidean distance between two 18-element vectors. -/
def euclid (a b : List ℝ) : ℝ :=
  Real.sqrt (∑ k in Finset.range 18, (a.getD k 0 - b.getD k 0) ^ 2)

/-- A landmark with every coordinate multiplied by `c`. -/
def scalePoint (c : ℝ) (l : Landmark) : Landmark := { x := c * l.x, y := c * l.y, z := c * l.z }

/-- A landmark list with every coordinate multiplied by `c`. -/
def scaleLandmarks (c : ℝ) (landmarks : List Landmark) : List Landmark :=
  landmarks.map (scalePoint c)

/-! ## `seededTemplates` (lines 76-135) -/

/-- The constant `seededTemplates` of lines 76-135, as the list of its entries in insertion
order. The letters J, N, P, Q and S are assigned the array of an earlier letter. -/
def seededTemplates : Templates :=
  let ext : ℝ := 0.9
  let cur : ℝ := 0.32
  let midExt : ℝ := 0.6
  let midCur : ℝ := 0.12
  let near : ℝ := 0.08
  let far : ℝ := 0.45
  let A : List (List ℝ) := [[cur, cur, cur, cur, cur, midCur, midCur, midCur, midCur, midCur,
    near, near, near, near, near, 2.6, 2.6, 2.6]]
  let B : List (List ℝ) := [[cur, ext, ext, ext, ext, midCur, midExt, midExt, midExt, midExt,
    far, far, far, far, far, 0.4, 0.45, 0.5]]
  let C : List (List ℝ) := [[0.7, 0.75, 0.78, 0.72, 0.7, 0.35, 0.38, 0.4, 0.36, 0.34,
    0.25, 0.22, 0.26, 0.28, 0.2, 1.2, 1.1, 1.15]]
  let D : List (List ℝ) := [[cur, ext, cur, cur, cur, midCur, midExt, midCur, midCur, midCur,
    0.25, 0.18, 0.2, 0.2, 0.18, 0.6, 1.8, 1.9]]
  let E : List (List ℝ) := [[cur, cur, cur, cur, cur, midCur, midCur, midCur, midCur, midCur,
    near, near, near, near, near, 2.4, 2.4, 2.4]]
  let F : List (List ℝ) := [[0.45, 0.7, 0.7, 0.65, 0.6, midCur, midExt, midExt, midExt, midExt,
    0.06, 0.22, 0.25, 0.28, 0.22, 0.6, 0.7, 0.8]]
  let G : List (List ℝ) := [[0.5, 0.82, 0.5, 0.48, 0.46, midCur, midExt, midCur, midCur, midCur,
    0.28, 0.18, 0.22, 0.2, 0.18, 0.5, 1.4, 1.5]]
  let H : List (List ℝ) := [[0.4, 0.86, 0.86, 0.48, 0.44, midCur, midExt, midExt, midCur, midCur,
    0.12, 0.22, 0.22, 0.2, 0.2, 0.4, 0.45, 1.6]]
  let I : List (List ℝ) := [[0.4, 0.45, 0.42, 0.4, 0.88, midCur, midCur, midCur, midCur, midExt,
    0.28, 0.18, 0.22, 0.26, 0.14, 2.0, 2.0, 2.0]]
  let J := I
  let K : List (List ℝ) := [[0.6, 0.9, 0.9, 0.5, 0.45, midCur, midExt, midExt, midCur, midCur,
    0.22, 0.2, 0.22, 0.2, 0.18, 0.5, 0.45, 1.4]]
  let L : List (List ℝ) := [[0.9, 0.85, 0.4, 0.38, 0.36, midExt, midExt, midCur, midCur, midCur,
    0.18, 0.26, 0.28, 0.24, 0.2, 0.5, 1.7, 1.8]]
  let M : List (List ℝ) := [[cur, cur, cur, cur, cur, midCur, midCur, midCur, midCur, midCur,
    near, near, near, near, near, 2.5, 2.5, 2.5]]
  let N := M
  let O : List (List ℝ) := [[0.44, 0.44, 0.44, 0.44, 0.44, midCur, midCur, midCur, midCur, midCur,
    0.08, 0.08, 0.08, 0.08, 0.08, 1.9, 1.9, 1.9]]
  let P := K
  let Q := G
  let R : List (List ℝ) := [[cur, 0.8, 0.8, cur, cur, midCur, midExt, midExt, midCur, midCur,
    0.1, 0.08, 0.14, 0.18, 0.16, 0.5, 0.5, 1.8]]
  let S := A
  let T : List (List ℝ) := [[cur, cur, cur, cur, cur, midCur, midCur, midCur, midCur, midCur,
    near, near, near, near, near, 2.5, 2.5, 2.5]]
  let U : List (List ℝ) := [[cur, 0.9, 0.9, cur, cur, midCur, midExt, midExt, midCur, midCur,
    0.12, 0.12, 0.18, 0.18, 0.16, 0.4, 0.45, 1.6]]
  let V : List (List ℝ) := [[cur, 0.9, 0.9, cur, cur, midCur, midExt, midExt, midCur, midCur,
    0.3, 0.25, 0.3, 0.22, 0.18, 0.4, 0.6, 1.6]]
  let W : List (List ℝ) := [[cur, 0.9, 0.9, 0.9, cur, midCur, midExt, midExt, midExt, midCur,
    0.3, 0.3, 0.3, 0.26, 0.22, 0.4, 0.45, 0.5]]
  let X : List (List ℝ) := [[cur, 0.45, cur, cur, cur, midCur, midCur, midCur, midCur, midCur,
    0.18, 0.16, 0.18, 0.16, 0.14, 1.9, 2.0, 2.0]]
  let Y : List (List ℝ) := [[0.9, 0.36, 0.36, 0.36, 0.9, midExt, midCur, midCur, midCur, midExt,
    0.4, 0.22, 0.2, 0.18, 0.4, 0.5, 1.9, 2.0]]
  let Z : List (List ℝ) := [[cur, 0.9, cur, cur, cur, midCur, midExt, midCur, midCur, midCur,
    0.22, 0.18, 0.2, 0.18, 0.16, 0.5, 1.5, 1.6]]
  [("A", A), ("B", B), ("C", C), ("D", D), ("E", E), ("F", F), ("G", G), ("H", H), ("I", I),
   ("J", J), ("K", K), ("L", L), ("M", M), ("N", N), ("O", O), ("P", P), ("Q", Q), ("R", R),
   ("S", S), ("T", T), ("U", U), ("V", V), ("W", W), ("X", X), ("Y", Y), ("Z", Z)]

/-! ## Auxiliary definitions used in the proofs -/

/-- The local `norm` of line 247, for a list that holds landmarks 0 and 9. -/
def handNorm (landmarks : List Landmark) : ℝ :=
  orEps (dist (landmarks.getD 0 ⟨0, 0, 0⟩) (landmarks.getD 9 ⟨0, 0, 0⟩))

/-- The local `extendedIndex` of line 253: `isExtended(8,5)`. -/
def extendedIndex (landmarks : List Landmark) : Prop :=
  isExtended (handNorm landmarks) (landmarks.getD 8 ⟨0, 0, 0⟩) (landmarks.getD 5 ⟨0, 0, 0⟩)

/-- The local `extendedMiddle` of line 254: `isExtended(12,9)`. -/
def extendedMiddle (landmarks : List Landmark) : Prop :=
  isExtended (handNorm landmarks) (landmarks.getD 12 ⟨0, 0, 0⟩) (landmarks.getD 9 ⟨0, 0, 0⟩)

/-- The local `extendedRing` of line 255: `isExtended(16,13)`. -/
def extendedRing (landmarks : List Landmark) : Prop :=
  isExtended (handNorm landmarks) (landmarks.getD 16 ⟨0, 0, 0⟩) (landmarks.getD 13 ⟨0, 0, 0⟩)

/-- The local `extendedPinky` of line 256: `isExtended(20,17)`. -/
def extendedPinky (landmarks : List Landmark) : Prop :=
  isExtended (handNorm landmarks) (landmarks.getD 20 ⟨0, 0, 0⟩) (landmarks.getD 17 ⟨0, 0, 0⟩)

/-- A hand in the pose of the letter L: wrist at the origin, middle knuckle at distance 1,
the thumb tip (landmark 4) at distance 1 from the wrist, the index tip (landmark 8)
above its knuckle, and the middle, ring and pinky tips on their knuckles. -/
def lPoseHand : List Landmark :=
  [⟨0, 0, 0⟩, ⟨0, 0, 0⟩, ⟨0, 0, 0⟩, ⟨0, 0, 0⟩, ⟨-1, 0, 0⟩,
   ⟨0, 0, 0⟩, ⟨0, 0, 0⟩, ⟨0, 0, 0⟩, ⟨0, -1, 0⟩,
   ⟨1, 0, 0⟩, ⟨1, 0, 0⟩, ⟨1, 0, 0⟩, ⟨1, 0, 0⟩,
   ⟨0, 0, 0⟩, ⟨0, 0, 0⟩, ⟨0, 0, 0⟩, ⟨0, 0, 0⟩,
   ⟨0, 0, 0⟩, ⟨0, 0, 0⟩, ⟨0, 0, 0⟩, ⟨0, 0, 0⟩]

/-- An 18-element feature vector whose entry 0 (thumb tip to wrist) is 0.9. -/
def thumbOutVec : List ℝ := 0.9 :: List.replicate 17 0

/-- The results `ruleBasedClassify` can return: `null` and sixteen letters. -/
def reachableResults : List (Option String) :=
  [none, some "A", some "S", some "T", some "M", some "N", some "E", some "D", some "I",
   some "U", some "V", some "W", some "O", some "C", some "F", some "R", some "X"]

/-- A call that returns, with a result among `reachableResults`. -/
def Reachable (x : Option (Option String)) : Prop := ∃ r, x = some r ∧ r ∈ reachableResults

/-- The count the handler stores on a hand frame with letter `L` (lines 416-420). -/
def nextCount (s : StabState) (L : String) : Nat :=
  if L = s.stableLetter then s.stableCount + 1 else 1

/-- The 18 entries `computeFeatures` pushes, in order, written out over the landmark reads `p`. -/
def featureList (p : Nat → Landmark) : List ℝ :=
  let norm := orEps (dist (p 0) (p 9))
  [dist (p 4) (p 0) / norm, dist (p 8) (p 0) / norm, dist (p 12) (p 0) / norm,
   dist (p 16) (p 0) / norm, dist (p 20) (p 0) / norm,
   dist (p 4) (p 3) / norm, dist (p 8) (p 7) / norm, dist (p 12) (p 11) / norm,
   dist (p 16) (p 15) / norm, dist (p 20) (p 19) / norm,
   dist (p 8) (p 12) / norm, dist (p 8) (p 4) / norm, dist (p 12) (p 16) / norm,
   dist (p 16) (p 20) / norm, dist (p 4) (p 8) / norm,
   angle (p 5) (p 6) (p 8), angle (p 9) (p 10) (p 12), angle (p 13) (p 14) (p 16)]

/-- A hand with every landmark at the origin. -/
def zeroHand : List Landmark := List.replicate 21 ⟨0, 0, 0⟩

/-- A hand with every landmark at the origin except the thumb tip (landmark 4). -/
def thumbOnlyHand : List Landmark :=
  List.replicate 4 ⟨0, 0, 0⟩ ++ [⟨1, 0, 0⟩] ++ List.replicate 16 ⟨0, 0, 0⟩

/-- A hand with the wrist at the origin, the middle knuckle at distance 1 from it, and
the four finger tips (landmarks 8, 12, 16, 20) stretched out above their knuckles, away
from the thumb tip. -/
def openHand : List Landmark :=
  [⟨0, 0, 0⟩, ⟨0, 0, 0⟩, ⟨0, 0, 0⟩, ⟨0, 0, 0⟩, ⟨0, 0, 0⟩,
   ⟨0, 0, 0⟩, ⟨0, 0, 0⟩, ⟨0, 0, 0⟩, ⟨0, -1, 0⟩,
   ⟨1, 0, 0⟩, ⟨0, 0, 0⟩, ⟨0, 0, 0⟩, ⟨0, -2, 0⟩,
   ⟨0, 0, 0⟩, ⟨0, 0, 0⟩, ⟨0, 0, 0⟩, ⟨0, -3, 0⟩,
   ⟨0, 0, 0⟩, ⟨0, 0, 0⟩, ⟨0, 0, 0⟩, ⟨0, -4, 0⟩]

/-- The 18-element vector of zeros. -/
def zeroVec : List ℝ := List.replicate 18 0

/-- A store whose only letter is A, with the single sample `zeroVec`. -/
def storeA : Templates := [("A", [zeroVec])]

/-- A store with the letters A and B on the same sample and a letter Z without samples. -/
def storeAB : Templates := [("A", [zeroVec]), ("Z", []), ("B", [zeroVec])]

/-- An 18-element vector at Euclidean distance 0.4 from `zeroVec`. -/
def queryNear : List ℝ := 0.4 :: List.replicate 17 0

/-- A model whose output is always `[0, 1]`. -/
def constModel : TfModel := fun _ => some [0, 1]

/-- The step of the sample loop of line 353: `sample` is added to `mean` index by index. -/
def addSample (mean sample : List ℝ) : List ℝ :=
  (List.range mean.length).map (fun j => mean.getD j 0 + sample.getD j 0)

/-- The update of line 357 on a letter together with its distance. -/
def pickStep (best : Prediction) (c : String × ℝ) : Prediction :=
  if (c.2 : WithTop ℝ) < best.score then { letter := c.1, score := (c.2 : WithTop ℝ) } else best

/-- The letters with at least one sample, each with the Euclidean distance of
`features` to the per-dimension mean of its samples, in iteration order. -/
def candidates (features : List ℝ) (templates : Templates) : List (String × ℝ) :=
  (templates.filter (fun e => decide (e.2.length ≠ 0))).map
    (fun e => (e.1, euclid features (meanVec e.2)))

/-! ## Stability filter: lemmas -/

theorem run_append (s : StabState) (fs gs : List Frame) :
    run s (fs ++ gs) = run (run s fs) gs := by
  simp [run, List.foldl_append]

theorem onResults_hand (s : StabState) (L : String) :
    onResults s (Frame.hand L) =
      { stableLetter := L, stableCount := nextCount s L,
        display := if L ≠ "" ∧ nextCount s L ≥ 5 then L else s.display } := by
  unfold onResults nextCount
  by_cases h : L = s.stableLetter
  · subst h
    simp only [if_true, STABLE_REQUIRED]
    split <;> rfl
  · simp only [h, if_false, STABLE_REQUIRED]
    split <;> rfl

/-- The held letter has been the prediction on the last `stableCount` frames that
reached the filter. -/
theorem run_trailing (fs : List Frame) :
    List.replicate (run initState fs).stableCount (Frame.hand (run initState fs).stableLetter)
      <:+ fs.filter Frame.filtered := by
  induction fs using List.reverseRecOn with
  | nil => simp [run, initState]
  | append_singleton fs f ih =>
    rw [run_append]
    cases f with
    | noHand => simp [run, onResults]
    | recording => simpa [run, onResults, Frame.filtered] using ih
    | hand L =>
      have hr : run (run initState fs) [Frame.hand L] =
          onResults (run initState fs) (Frame.hand L) := rfl
      rw [hr, onResults_hand, List.filter_append]
      simp only [nextCount]
      by_cases h : L = (run initState fs).stableLetter
      · simp only [h, if_true, List.replicate_succ', List.filter, Frame.filtered]
        obtain ⟨t, ht⟩ := ih
        exact ⟨t, by rw [← List.append_assoc, ht]⟩
      · simp only [h, if_false, List.filter, Frame.filtered]
        exact ⟨_, rfl⟩

/-! ## Stability filter: claims C1, C2, C3 -/

/-- C1, as stated, fails: on the frames A, A, A, A, B, B from the initial state the
display sequence is not blank, blank, blank, blank, A, A. -/
theorem displays_AAAABB_ne_spec :
    displays initState [Frame.hand "A", Frame.hand "A", Frame.hand "A", Frame.hand "A",
      Frame.hand "B", Frame.hand "B"] ≠ [blank, blank, blank, blank, "A", "A"] := by
  decide

/-- C1, amended: on the frames A, A, A, A, B, B from the initial state the display
stays blank on all six frames, since A is held on four consecutive frames only. -/
theorem displays_AAAABB :
    displays initState [Frame.hand "A", Frame.hand "A", Frame.hand "A", Frame.hand "A",
      Frame.hand "B", Frame.hand "B"] = [blank, blank, blank, blank, blank, blank] := by
  decide

/-- C2: in a run that displays A, a no-hand frame gives the state (no letter,
count 0) and a blank display; one A frame after it leaves the display blank, as do
up to four; the fifth consecutive A frame displays A again. -/
theorem hand_loss_resets (fs : List Frame) (_h : (run initState fs).display = "A") :
    onResults (run initState fs) Frame.noHand =
      { stableLetter := "", stableCount := 0, display := blank } ∧
    (onResults (onResults (run initState fs) Frame.noHand) (Frame.hand "A")).display = blank ∧
    (∀ k, k < 5 → (run (onResults (run initState fs) Frame.noHand)
        (List.replicate k (Frame.hand "A"))).display = blank) ∧
    (run (onResults (run initState fs) Frame.noHand)
        (List.replicate 5 (Frame.hand "A"))).display = "A" := by
  have hi : onResults (run initState fs) Frame.noHand = initState := rfl
  rw [hi]
  refine ⟨rfl, by decide, ?_, by decide⟩
  intro k hk
  interval_cases k <;> decide

/-- Witness for C2: the run of five A frames displays A, and the theorem applies to it. -/
theorem hand_loss_resets_witness :
    (run initState (List.replicate 5 (Frame.hand "A"))).display = "A" ∧
    (onResults (onResults (run initState (List.replicate 5 (Frame.hand "A"))) Frame.noHand)
      (Frame.hand "A")).display = blank :=
  ⟨by decide, (hand_loss_resets (List.replicate 5 (Frame.hand "A")) (by decide)).2.1⟩

/-- C3: on a hand frame with a (non-empty) predicted letter `L`, the count becomes
the old count plus one if `L` is the held letter and 1 otherwise; the display becomes
`L` if the new count is at least 5 and is unchanged otherwise; and in a run from the
initial state the display changes on such a frame only if the last five frames that
reached the filter (no no-hand frame among them) all predicted `L`. -/
theorem hand_frame_step (s : StabState) (L : String) (hL : L ≠ "") :
    (onResults s (Frame.hand L)).stableCount =
      (if L = s.stableLetter then s.stableCount + 1 else 1) ∧
    (onResults s (Frame.hand L)).display =
      (if (onResults s (Frame.hand L)).stableCount ≥ 5 then L else s.display) ∧
    (∀ fs : List Frame, s = run initState fs →
      (onResults s (Frame.hand L)).display ≠ s.display →
      List.replicate 5 (Frame.hand L) <:+ (fs ++ [Frame.hand L]).filter Frame.filtered) := by
  refine ⟨by simp [onResults_hand, nextCount], by simp [onResults_hand, hL], ?_⟩
  intro fs hs hne
  have ht := run_trailing (fs ++ [Frame.hand L])
  rw [run_append, ← hs] at ht
  have hr : run s [Frame.hand L] = onResults s (Frame.hand L) := rfl
  rw [hr, onResults_hand] at ht
  rw [onResults_hand] at hne
  simp only [hL, ne_eq, not_false_eq_true, true_and] at hne ht
  by_cases h5 : nextCount s L ≥ 5
  · refine List.IsSuffix.trans ?_ ht
    obtain ⟨m, hm⟩ := Nat.exists_eq_add_of_le h5
    rw [hm, Nat.add_comm, List.replicate_add]
    exact List.suffix_append _ _
  · simp [h5] at hne

/-- Witness for C3: the fifth consecutive A frame, where the display changes to A. -/
theorem hand_frame_step_witness :
    (onResults (run initState (List.replicate 4 (Frame.hand "A"))) (Frame.hand "A")).display = "A" ∧
    List.replicate 5 (Frame.hand "A") <:+
      (List.replicate 4 (Frame.hand "A") ++ [Frame.hand "A"]).filter Frame.filtered :=
  ⟨by decide,
    (hand_frame_step (run initState (List.replicate 4 (Frame.hand "A"))) "A" (by decide)).2.2
      (List.replicate 4 (Frame.hand "A")) rfl (by decide)⟩

/-! ## Geometry: lemmas -/

theorem hypot3_nonneg (a b c : ℝ) : 0 ≤ hypot3 a b c := Real.sqrt_nonneg _

theorem hypot3_eq_zero_iff (a b c : ℝ) : hypot3 a b c = 0 ↔ a = 0 ∧ b = 0 ∧ c = 0 := by
  unfold hypot3
  rw [Real.sqrt_eq_zero (by nlinarith [mul_self_nonneg a, mul_self_nonneg b, mul_self_nonneg c])]
  constructor
  · intro h
    refine ⟨?_, ?_, ?_⟩ <;> nlinarith [mul_self_nonneg a, mul_self_nonneg b, mul_self_nonneg c]
  · rintro ⟨rfl, rfl, rfl⟩
    simp

theorem hypot3_scale (k a b c : ℝ) (hk : 0 ≤ k) :
    hypot3 (k * a) (k * b) (k * c) = k * hypot3 a b c := by
  unfold hypot3
  have : k * a * (k * a) + k * b * (k * b) + k * c * (k * c) = k ^ 2 * (a * a + b * b + c * c) := by
    ring
  rw [this, Real.sqrt_mul (sq_nonneg k), Real.sqrt_sq hk]

theorem dist_nonneg (a b : Landmark) : 0 ≤ dist a b := hypot3_nonneg _ _ _

theorem dist_eq_zero_iff (a b : Landmark) : dist a b = 0 ↔ a = b := by
  unfold dist
  rw [hypot3_eq_zero_iff]
  cases a; cases b
  simp [sub_eq_zero]

theorem dist_scale (k : ℝ) (hk : 0 ≤ k) (a b : Landmark) :
    dist (scalePoint k a) (scalePoint k b) = k * dist a b := by
  unfold dist scalePoint
  simp only [← mul_sub]
  exact hypot3_scale k _ _ _ hk

theorem orEps_pos (v : ℝ) (hv : 0 ≤ v) : 0 < orEps v := by
  unfold orEps
  split
  · norm_num
  · exact lt_of_le_of_ne hv (Ne.symm ‹_›)

theorem orEps_of_ne (v : ℝ) (hv : v ≠ 0) : orEps v = v := by
  simp [orEps, hv]

theorem angle_scale (k : ℝ) (hk : 0 < k) (a b c : Landmark) :
    angle (scalePoint k a) (scalePoint k b) (scalePoint k c) = angle a b c := by
  unfold angle scalePoint
  simp only [← mul_sub, hypot3_scale k _ _ _ hk.le]
  have hk0 : k ≠ 0 := hk.ne'
  simp only [mul_eq_zero, hk0, false_or]
  split
  · rfl
  · congr 3
    have h1 : k * (a.x - b.x) * (k * (c.x - b.x)) + k * (a.y - b.y) * (k * (c.y - b.y)) +
        k * (a.z - b.z) * (k * (c.z - b.z)) =
        (k * k) * ((a.x - b.x) * (c.x - b.x) + (a.y - b.y) * (c.y - b.y) +
          (a.z - b.z) * (c.z - b.z)) := by
      ring
    have h2 : k * hypot3 (a.x - b.x) (a.y - b.y) (a.z - b.z) *
        (k * hypot3 (c.x - b.x) (c.y - b.y) (c.z - b.z)) =
        (k * k) * (hypot3 (a.x - b.x) (a.y - b.y) (a.z - b.z) *
          hypot3 (c.x - b.x) (c.y - b.y) (c.z - b.z)) := by
      ring
    rw [h1, h2, mul_div_mul_left _ _ (mul_ne_zero hk0 hk0)]

theorem angle_mem (a b c : Landmark) : 0 ≤ angle a b c ∧ angle a b c ≤ Real.pi := by
  unfold angle
  simp only
  split
  · exact ⟨le_refl _, Real.pi_pos.le⟩
  · exact ⟨Real.arccos_nonneg _, Real.arccos_le_pi _⟩

theorem angle_degenerate (a b c : Landmark) (h : dist a b = 0 ∨ dist c b = 0) :
    angle a b c = 0 := by
  unfold angle
  simp only
  rw [if_pos]
  exact h

theorem getElem?_of_lt (lms : List Landmark) (i : Nat) (h : i < lms.length) :
    lms[i]? = some (lms.getD i ⟨0, 0, 0⟩) := by
  simp [List.getD, List.getElem?_eq_getElem h]

theorem computeFeatures_eq (lms : List Landmark) (h : 21 ≤ lms.length) :
    computeFeatures lms = some (featureList (fun i => lms.getD i ⟨0, 0, 0⟩)) := by
  have H : ∀ i, i < 21 → lms[i]? = some (lms.getD i ⟨0, 0, 0⟩) :=
    fun i hi => getElem?_of_lt lms i (by omega)
  simp only [computeFeatures, List.zip, List.zipWith, List.mapM_cons, List.mapM_nil]
  simp only [H, Nat.reduceLT, Option.pure_def, Option.bind_eq_bind, Option.some_bind, featureList]
  rfl

theorem computeFeatures_none (lms : List Landmark) (h : lms.length < 21) :
    computeFeatures lms = none := by
  have h20 : lms[20]? = none := List.getElem?_eq_none (by omega)
  simp only [computeFeatures, List.zip, List.zipWith, List.mapM_cons, List.mapM_nil]
  simp only [h20, Option.pure_def, Option.bind_eq_bind, Option.none_bind, Option.bind_none]

/-! ## `computeFeatures`: claims C8, C9, C10 -/

theorem getD_scale (c : ℝ) (lms : List Landmark) (i : Nat) (h : i < lms.length) :
    (scaleLandmarks c lms).getD i ⟨0, 0, 0⟩ = scalePoint c (lms.getD i ⟨0, 0, 0⟩) := by
  simp [scaleLandmarks, List.getD, List.getElem?_eq_getElem h]

theorem featureList_scale (c : ℝ) (hc : 0 < c) (p : Nat → Landmark) (h : p 0 ≠ p 9) :
    featureList (fun i => scalePoint c (p i)) = featureList p := by
  have hd : dist (p 0) (p 9) ≠ 0 := fun h0 => h ((dist_eq_zero_iff _ _).1 h0)
  have hcd : c * dist (p 0) (p 9) ≠ 0 := mul_ne_zero hc.ne' hd
  simp only [featureList, dist_scale c hc.le, angle_scale c hc, orEps_of_ne _ hd,
    orEps_of_ne _ hcd, mul_div_mul_left _ _ hc.ne']

/-- C8, amended: for every list of 21 landmarks whose wrist (landmark 0) and middle
knuckle (landmark 9) are different points, and every positive real `c`, `computeFeatures`
gives the same result on the landmarks scaled by `c` as on the landmarks themselves. -/
theorem scale_invariant (lms : List Landmark) (c : ℝ) (hlen : lms.length = 21)
    (hc : 0 < c) (hne : lms[0]? ≠ lms[9]?) :
    computeFeatures (scaleLandmarks c lms) = computeFeatures lms := by
  have hlen2 : (scaleLandmarks c lms).length = 21 := by simp [scaleLandmarks, hlen]
  rw [computeFeatures_eq _ (by omega), computeFeatures_eq _ (by omega)]
  have hp : (fun i => (scaleLandmarks c lms).getD i ⟨0, 0, 0⟩) =
      fun i => scalePoint c ((fun i => lms.getD i ⟨0, 0, 0⟩) i) := by
    funext i
    by_cases hi : i < lms.length
    · exact getD_scale c lms i hi
    · simp [scaleLandmarks, List.getD, List.getElem?_eq_none (not_lt.1 hi), scalePoint]
  rw [hp, featureList_scale c hc]
  intro h0
  apply hne
  rw [getElem?_of_lt lms 0 (by omega), getElem?_of_lt lms 9 (by omega)]
  exact congrArg some h0

theorem hypot3_x (a : ℝ) : hypot3 a 0 0 = |a| := by
  simp [hypot3, Real.sqrt_mul_self_eq_abs]

theorem hypot3_y (b : ℝ) : hypot3 0 b 0 = |b| := by
  simp [hypot3, Real.sqrt_mul_self_eq_abs]

/-- C8, as stated, fails: on the 21 landmarks of `thumbOnlyHand`, where wrist and middle
knuckle coincide and `norm` is the constant `1e-6`, scaling by 2 changes the features. -/
theorem scale_changes_degenerate_hand :
    thumbOnlyHand.length = 21 ∧ (0 : ℝ) < 2 ∧
    computeFeatures (scaleLandmarks 2 thumbOnlyHand) ≠ computeFeatures thumbOnlyHand := by
  refine ⟨rfl, by norm_num, ?_⟩
  rw [computeFeatures_eq _ (by simp [scaleLandmarks, thumbOnlyHand]),
    computeFeatures_eq _ (by simp [thumbOnlyHand])]
  intro h
  have h1 := congrArg (fun v => (v.getD []).getD 0 0) h
  simp [featureList, scaleLandmarks, thumbOnlyHand, scalePoint, dist, orEps, List.replicate,
    hypot3_x] at h1
  norm_num at h1

/-- C9: for every list of 21 landmarks `computeFeatures` returns a vector of exactly 18
numbers, entries 0 to 14 are non-negative, entries 15 to 17 lie in `[0, π]`, and `angle`
is 0 whenever one of its two vectors has length zero. -/
theorem feature_shape (lms : List Landmark) (hlen : lms.length = 21) :
    ∃ v, computeFeatures lms = some v ∧ v.length = 18 ∧
      (∀ i, i < 15 → 0 ≤ v.getD i 0) ∧
      (∀ i, 15 ≤ i → i < 18 → 0 ≤ v.getD i 0 ∧ v.getD i 0 ≤ Real.pi) ∧
      (∀ a b c : Landmark, dist a b = 0 ∨ dist c b = 0 → angle a b c = 0) := by
  refine ⟨_, computeFeatures_eq lms (by omega), rfl, ?_, ?_, angle_degenerate⟩
  · intro i hi
    have hn := orEps_pos _ (dist_nonneg (lms.getD 0 ⟨0,0,0⟩) (lms.getD 9 ⟨0,0,0⟩))
    interval_cases i <;> simp only [featureList, List.getD_cons_zero, List.getD_cons_succ] <;>
      exact div_nonneg (dist_nonneg _ _) hn.le
  · intro i h1 h2
    interval_cases i <;> simp only [featureList, List.getD_cons_zero, List.getD_cons_succ] <;>
      exact angle_mem _ _ _

/-- C10, amended: `computeFeatures` raises (a `TypeError` on the read of a missing
landmark) exactly on the landmark lists with fewer than 21 entries; on every other list
it returns a vector. -/
theorem raises_iff_short (lms : List Landmark) :
    computeFeatures lms = none ↔ lms.length < 21 := by
  constructor
  · intro h
    by_contra hn
    rw [computeFeatures_eq lms (by omega)] at h
    exact Option.noConfusion h
  · exact computeFeatures_none lms

/-- C10, as stated, fails: on the empty landmark list, which has fewer than 21 entries,
`computeFeatures` returns no vector at all; it raises. -/
theorem short_hand_raises :
    ([] : List Landmark).length < 21 ∧ ¬ ∃ v, computeFeatures [] = some v := by
  refine ⟨by decide, ?_⟩
  rw [computeFeatures_none [] (by decide)]
  simp

/-! ## Nearest-neighbour step: lemmas -/

theorem getD_map_range (n j : Nat) (g : Nat → ℝ) (h : j < n) :
    ((List.range n).map g).getD j 0 = g j := by
  simp [List.getD, List.getElem?_range h]

theorem foldl_addSample (rest : List (List ℝ)) (first : List ℝ) :
    (rest.foldl addSample first).length = first.length ∧
    ∀ j, j < first.length →
      (rest.foldl addSample first).getD j 0 =
        first.getD j 0 + (rest.map (fun s => s.getD j 0)).sum := by
  induction rest generalizing first with
  | nil => simp
  | cons r rest ih =>
    have hl : (addSample first r).length = first.length := by simp [addSample]
    obtain ⟨h1, h2⟩ := ih (addSample first r)
    refine ⟨by rw [List.foldl_cons, h1, hl], ?_⟩
    intro j hj
    rw [List.foldl_cons, h2 j (by rw [hl]; exact hj)]
    simp only [addSample, getD_map_range _ _ _ hj, List.map_cons, List.sum_cons]
    ring

theorem meanOf_eq_meanVec (samples : List (List ℝ)) (hne : samples ≠ [])
    (hs : ∀ s ∈ samples, s.length = 18) : meanOf samples = meanVec samples := by
  cases samples with
  | nil => exact absurd rfl hne
  | cons first rest =>
    have hfirst : first.length = 18 := hs first (List.mem_cons_self _ _)
    obtain ⟨h1, h2⟩ := foldl_addSample rest first
    unfold meanOf meanVec
    change (List.range (rest.foldl addSample first).length).map
        (fun j => (rest.foldl addSample first).getD j 0 / (((first :: rest).length : ℕ) : ℝ)) = _
    rw [h1, hfirst]
    apply List.map_congr_left
    intro j hj
    rw [List.mem_range] at hj
    rw [h2 j (by omega)]
    simp

theorem foldl_range_sum (g : Nat → ℝ) (n : Nat) :
    (List.range n).foldl (fun s k => s + g k) 0 = ∑ k in Finset.range n, g k := by
  induction n with
  | zero => simp
  | succ n ih => rw [List.range_succ, List.foldl_append, ih, Finset.sum_range_succ]; rfl

theorem distTo_eq_euclid (f mean : List ℝ) (h : mean.length = 18) :
    distTo f mean = euclid f mean := by
  unfold distTo euclid
  rw [h, foldl_range_sum (fun k => (f.getD k 0 - mean.getD k 0) * (f.getD k 0 - mean.getD k 0))]
  congr 1
  apply Finset.sum_congr rfl
  intro k _
  ring

theorem meanVec_length (samples : List (List ℝ)) : (meanVec samples).length = 18 := by
  simp [meanVec]


theorem nnUpdate_empty (f : List ℝ) (best : Prediction) (e : String × List (List ℝ))
    (h : e.2.length = 0) : nnUpdate f best e = best := by
  simp [nnUpdate, h]

theorem nnUpdate_nonempty (f : List ℝ) (best : Prediction) (e : String × List (List ℝ))
    (h : e.2.length ≠ 0) (hs : ∀ s ∈ e.2, s.length = 18) :
    nnUpdate f best e = pickStep best (e.1, euclid f (meanVec e.2)) := by
  have hne : e.2 ≠ [] := fun h0 => h (by rw [h0]; rfl)
  simp only [nnUpdate, h, if_false, pickStep]
  rw [meanOf_eq_meanVec _ hne hs, distTo_eq_euclid _ _ (meanVec_length _)]

theorem foldl_nnUpdate (f : List ℝ) (templates : Templates) (best : Prediction)
    (hs : ∀ e ∈ templates, ∀ s ∈ e.2, s.length = 18) :
    templates.foldl (nnUpdate f) best = (candidates f templates).foldl pickStep best := by
  induction templates generalizing best with
  | nil => rfl
  | cons e rest ih =>
    have hrest : ∀ e ∈ rest, ∀ s ∈ e.2, s.length = 18 :=
      fun e he => hs e (List.mem_cons_of_mem _ he)
    rw [List.foldl_cons, ih _ hrest]
    by_cases h : e.2.length = 0
    · rw [nnUpdate_empty f best e h]
      have hc : candidates f (e :: rest) = candidates f rest := by
        unfold candidates
        rw [List.filter_cons_of_neg (by simp [h])]
      rw [hc]
    · rw [nnUpdate_nonempty f best e h (hs e (List.mem_cons_self _ _))]
      have hc : candidates f (e :: rest) =
          (e.1, euclid f (meanVec e.2)) :: candidates f rest := by
        unfold candidates
        rw [List.filter_cons_of_pos (by simpa using h), List.map_cons]
      rw [hc, List.foldl_cons]

theorem foldl_nnUpdate_filter (f : List ℝ) (templates : Templates) (best : Prediction) :
    (templates.filter (fun e => decide (e.2.length ≠ 0))).foldl (nnUpdate f) best =
      templates.foldl (nnUpdate f) best := by
  induction templates generalizing best with
  | nil => rfl
  | cons e rest ih =>
    by_cases h : e.2.length = 0
    · simp only [List.filter_cons, h, ne_eq, not_true_eq_false, decide_False, Bool.false_eq_true,
        if_false, List.foldl_cons, nnUpdate_empty f best e h]
      exact ih best
    · simp only [List.filter_cons, h, ne_eq, not_false_eq_true, decide_True, if_true,
        List.foldl_cons]
      exact ih _

/-- The fold of `pickStep` from the initial best ends on the first candidate of least distance. -/
theorem foldl_pickStep_spec (cands : List (String × ℝ)) (hne : cands ≠ []) :
    ∃ i, ∃ hi : i < cands.length,
      cands.foldl pickStep { letter := "—", score := ⊤ } =
        { letter := (cands.get ⟨i, hi⟩).1, score := ((cands.get ⟨i, hi⟩).2 : WithTop ℝ) } ∧
      (∀ c ∈ cands, (cands.get ⟨i, hi⟩).2 ≤ c.2) ∧
      (∀ j, ∀ hj : j < cands.length, j < i → (cands.get ⟨i, hi⟩).2 < (cands.get ⟨j, hj⟩).2) := by
  induction cands using List.reverseRecOn with
  | nil => exact absurd rfl hne
  | append_singleton cs c ih =>
    rw [List.foldl_append, List.foldl_cons, List.foldl_nil]
    by_cases hcs : cs = []
    · subst hcs
      refine ⟨0, by simp, ?_, ?_, ?_⟩
      · simp [pickStep]
      · simp
      · intro j hj hj0; omega
    · obtain ⟨i, hi, hfold, hmin, hfirst⟩ := ih hcs
      rw [hfold]
      have hi2 : i < (cs ++ [c]).length := by simp; omega
      have hget : (cs ++ [c]).get ⟨i, hi2⟩ = cs.get ⟨i, hi⟩ := by
        simp [List.getElem_append_left hi]
      by_cases hlt : c.2 < (cs.get ⟨i, hi⟩).2
      · have hlen : cs.length < (cs ++ [c]).length := by simp
        have hgetc : (cs ++ [c]).get ⟨cs.length, hlen⟩ = c := by simp
        refine ⟨cs.length, hlen, ?_, ?_, ?_⟩
        · rw [hgetc]
          unfold pickStep
          rw [if_pos (WithTop.coe_lt_coe.2 hlt)]
        · rw [hgetc]
          intro d hd
          rcases List.mem_append.1 hd with hd | hd
          · exact le_trans hlt.le (hmin d hd)
          · rw [List.mem_singleton.1 hd]
        · rw [hgetc]
          intro j hj hjlt
          have : (cs ++ [c]).get ⟨j, hj⟩ = cs.get ⟨j, hjlt⟩ := by
            simp [List.getElem_append_left hjlt]
          rw [this]
          exact lt_of_lt_of_le hlt (hmin _ (List.get_mem _ _ _))
      · refine ⟨i, hi2, ?_, ?_, ?_⟩
        · rw [hget]
          unfold pickStep
          rw [if_neg (fun h => hlt (WithTop.coe_lt_coe.1 h))]
        · rw [hget]
          intro d hd
          rcases List.mem_append.1 hd with hd | hd
          · exact hmin d hd
          · rw [List.mem_singleton.1 hd]; exact not_lt.1 hlt
        · rw [hget]
          intro j hj hji
          have hjc : j < cs.length := by omega
          have : (cs ++ [c]).get ⟨j, hj⟩ = cs.get ⟨j, hjc⟩ := by
            simp [List.getElem_append_left hjc]
          rw [this]
          exact hfirst j hjc hji

/-! ## `classify`: claims C4, C5, C6, C7 -/

theorem rule_zeroHand (f : List ℝ) (hf : f.length = 18) :
    ruleBasedClassify f zeroHand = some (some "A") := by
  simp [ruleBasedClassify, hf, zeroHand, List.replicate, dist, hypot3_x, orEps, isExtended]
  norm_num

theorem rule_openHand (f : List ℝ) (hf : f.length = 18) :
    ruleBasedClassify f openHand = some none := by
  simp [ruleBasedClassify, hf, openHand, dist, hypot3_x, hypot3_y, orEps, isExtended]
  norm_num


theorem sampleKeys_eq_nil (templates : Templates) (h : ∀ e ∈ templates, e.2 = []) :
    sampleKeys templates = [] := by
  unfold sampleKeys
  rw [List.map_eq_nil_iff, List.filter_eq_nil_iff]
  intro e he
  simp [h e he]

theorem modelStep_eq_none_of_keys (tf : Option TfModel) (templates : Templates) (f : List ℝ)
    (h : sampleKeys templates = []) : modelStep tf templates f = none := by
  unfold modelStep
  rw [h]
  cases tf with
  | none => rfl
  | some m =>
    simp only
    cases m f with
    | none => rfl
    | some arr =>
      simp only
      cases indexOf arr (mathMax arr) with
      | none => rfl
      | some idx => simp

theorem classify_of_rule_none (tf : Option TfModel) (templates : Templates) (f : List ℝ)
    (lms : List Landmark) (hm : modelStep tf templates f = none)
    (hr : ruleBasedClassify f lms = some none) :
    classify tf templates f lms = some (nearest f templates) := by
  simp [classify, hm, hr]

theorem nnBest_eq (f : List ℝ) (templates : Templates)
    (hs : ∀ e ∈ templates, ∀ s ∈ e.2, s.length = 18) :
    nnBest f templates =
      (candidates f templates).foldl pickStep { letter := "—", score := ⊤ } :=
  foldl_nnUpdate f templates _ hs

/-- C6: when the nearest-neighbour step is reached (`ruleBasedClassify` returns `null`)
on a store in which no letter has a sample, `classify` returns the unknown marker `?`
with the score `Infinity`, for every feature vector and whatever `tfModel` is. -/
theorem classify_empty_store (tf : Option TfModel) (templates : Templates) (f : List ℝ)
    (lms : List Landmark) (hempty : ∀ e ∈ templates, e.2 = [])
    (hr : ruleBasedClassify f lms = some none) :
    classify tf templates f lms = some { letter := "?", score := ⊤ } := by
  rw [classify_of_rule_none tf templates f lms
    (modelStep_eq_none_of_keys tf templates f (sampleKeys_eq_nil templates hempty)) hr]
  have hb : nnBest f templates = { letter := "—", score := ⊤ } := by
    rw [nnBest_eq f templates (fun e he s hs => by rw [hempty e he] at hs; cases hs)]
    have : candidates f templates = [] := by
      unfold candidates
      rw [List.map_eq_nil_iff, List.filter_eq_nil_iff]
      intro e he
      simp [hempty e he]
    rw [this]; rfl
  simp [nearest, hb]

/-- Witness for C6: a store whose only letter has no sample, with a model loaded. -/
theorem classify_empty_store_witness :
    classify (some constModel) [("A", [])] [] [] = some { letter := "?", score := ⊤ } :=
  classify_empty_store (some constModel) [("A", [])] [] [] (by simp)
    (by simp [ruleBasedClassify])

/-- C4: with no model loaded and no rule match, on a store whose only letter with samples
is A (18-element samples with per-dimension mean `V`), for every 18-element `f` at
Euclidean distance `d` from `V`, `classify` returns the score `d`, with the marker `?`
when `d > 0.45` and the letter A when `d ≤ 0.45`. -/
theorem classify_single_letter (templates : Templates) (samples : List (List ℝ)) (f : List ℝ)
    (lms : List Landmark)
    (hstore : templates.filter (fun e => decide (e.2.length ≠ 0)) = [("A", samples)])
    (hs : ∀ s ∈ samples, s.length = 18) (_hf : f.length = 18)
    (hr : ruleBasedClassify f lms = some none) :
    classify none templates f lms =
      some { letter := if euclid f (meanVec samples) > 0.45 then "?" else "A",
             score := (euclid f (meanVec samples) : WithTop ℝ) } := by
  rw [classify_of_rule_none none templates f lms rfl hr]
  have hb : nnBest f templates =
      { letter := "A", score := (euclid f (meanVec samples) : WithTop ℝ) } := by
    unfold nnBest
    rw [← foldl_nnUpdate_filter, hstore, foldl_nnUpdate f _ _ (by
      intro e he s hse
      rw [List.mem_singleton.1 he] at hse
      exact hs s hse)]
    have hne : samples.length ≠ 0 := by
      have : ("A", samples) ∈ templates.filter (fun e => decide (e.2.length ≠ 0)) := by
        rw [hstore]; exact List.mem_singleton_self _
      simpa using (List.mem_filter.1 this).2
    have hc : candidates f [("A", samples)] = [("A", euclid f (meanVec samples))] := by
      unfold candidates
      rw [List.filter_cons_of_pos (by simpa using hne)]
      rfl
    rw [hc]
    simp [pickStep]
  simp only [nearest, hb, gt_iff_lt, WithTop.coe_lt_coe]
  split <;> rfl


theorem sampleKeys_filter (templates : Templates) :
    sampleKeys (templates.filter (fun e => decide (e.2.length ≠ 0))) = sampleKeys templates := by
  unfold sampleKeys
  rw [List.filter_filter]
  simp

theorem modelStep_filter (tf : Option TfModel) (templates : Templates) (f : List ℝ) :
    modelStep tf (templates.filter (fun e => decide (e.2.length ≠ 0))) f =
      modelStep tf templates f := by
  unfold modelStep
  rw [sampleKeys_filter]

theorem nearest_filter (f : List ℝ) (templates : Templates) :
    nearest f (templates.filter (fun e => decide (e.2.length ≠ 0))) = nearest f templates := by
  unfold nearest nnBest
  rw [foldl_nnUpdate_filter]

theorem classify_filter (tf : Option TfModel) (templates : Templates) (f : List ℝ)
    (lms : List Landmark) :
    classify tf (templates.filter (fun e => decide (e.2.length ≠ 0))) f lms =
      classify tf templates f lms := by
  unfold classify
  rw [modelStep_filter, nearest_filter]

/-- C5: when the nearest-neighbour step is reached on a store of 18-element samples with
at least one sample, the score is the least of the Euclidean distances of the features
to the per-dimension means of the letters with samples; the index `i` of the chosen
letter is the first that attains it; if that distance is at most 0.45 the returned letter
is that letter; and dropping the letters without samples gives the same result. -/
theorem classify_nearest_first_min (tf : Option TfModel) (templates : Templates) (f : List ℝ)
    (lms : List Landmark)
    (hs : ∀ e ∈ templates, ∀ s ∈ e.2, s.length = 18) (_hf : f.length = 18)
    (hne : ∃ e ∈ templates, e.2 ≠ [])
    (hm : modelStep tf templates f = none)
    (hr : ruleBasedClassify f lms = some none) :
    ∃ res, classify tf templates f lms = some res ∧
      (∃ i, ∃ hi : i < (candidates f templates).length,
        res.score = (((candidates f templates).get ⟨i, hi⟩).2 : WithTop ℝ) ∧
        (∀ c ∈ candidates f templates, ((candidates f templates).get ⟨i, hi⟩).2 ≤ c.2) ∧
        (∀ j, ∀ hj : j < (candidates f templates).length, j < i →
          ((candidates f templates).get ⟨i, hi⟩).2 < ((candidates f templates).get ⟨j, hj⟩).2) ∧
        (((candidates f templates).get ⟨i, hi⟩).2 ≤ 0.45 →
          res.letter = ((candidates f templates).get ⟨i, hi⟩).1)) ∧
      classify tf (templates.filter (fun e => decide (e.2.length ≠ 0))) f lms = some res := by
  refine ⟨nearest f templates, classify_of_rule_none tf templates f lms hm hr, ?_, ?_⟩
  · have hcne : candidates f templates ≠ [] := by
      obtain ⟨e, he, hemp⟩ := hne
      unfold candidates
      intro h
      rw [List.map_eq_nil_iff, List.filter_eq_nil_iff] at h
      exact h e he (by simpa using hemp)
    obtain ⟨i, hi, hfold, hmin, hfirst⟩ := foldl_pickStep_spec (candidates f templates) hcne
    have hb := nnBest_eq f templates hs
    rw [hfold] at hb
    refine ⟨i, hi, ?_, hmin, hfirst, ?_⟩
    · simp only [nearest, hb]
      split <;> rfl
    · intro hle
      simp only [nearest, hb, gt_iff_lt, WithTop.coe_lt_coe]
      rw [if_neg (not_lt.2 hle)]
  · rw [classify_filter]
    exact classify_of_rule_none tf templates f lms hm hr

theorem mathMax_mem (arr : List ℝ) (idx : Nat) (h : indexOf arr (mathMax arr) = some idx) :
    idx < arr.length ∧ (arr.getD idx 0 : WithBot ℝ) = mathMax arr := by
  unfold indexOf at h
  simp only at h
  split at h
  · rename_i hlt
    have hidx := Option.some.inj h
    subst hidx
    refine ⟨hlt, ?_⟩
    have := @List.findIdx_getElem ℝ (fun x => decide ((x : WithBot ℝ) = mathMax arr)) arr hlt
    simp only [decide_eq_true_eq] at this
    rw [List.getD_eq_getElem _ _ hlt]
    exact this
  · exact Option.noConfusion h

/-- C7: when the loaded model's arg-max index `idx` maps to a letter `M` among the
template letters with samples, and `ruleBasedClassify` would return another letter `R`,
`classify` returns `M` with score 1 minus the arg-max probability. Whenever the model
step gives a result, `classify` returns it for every landmark list; the model step gives
none only if no model is loaded, the model call fails, or the index maps to no letter. -/
theorem classify_prefers_model (model : TfModel) (templates : Templates) (f : List ℝ)
    (lms : List Landmark) (arr : List ℝ) (idx : Nat) (M R : String)
    (hpred : model f = some arr) (hidx : indexOf arr (mathMax arr) = some idx)
    (hkey : (sampleKeys templates)[idx]? = some M) (hM : M ≠ "")
    (_hrule : ruleBasedClassify f lms = some (some R)) (_hRM : R ≠ M) :
    classify (some model) templates f lms =
      some { letter := M, score := ((1 - arr.getD idx 0 : ℝ) : WithTop ℝ) } ∧
    (arr.getD idx 0 : WithBot ℝ) = mathMax arr ∧
    (∀ (tf : Option TfModel) (res : Prediction), modelStep tf templates f = some res →
      ∀ lms2 : List Landmark, classify tf templates f lms2 = some res) ∧
    (∀ tf : Option TfModel, modelStep tf templates f = none →
      tf = none ∨ (∃ m, tf = some m ∧ m f = none) ∨
      (∃ m a, tf = some m ∧ m f = some a ∧
        ∀ i, indexOf a (mathMax a) = some i →
          (sampleKeys templates)[i]? = none ∨ (sampleKeys templates)[i]? = some "")) := by
  have hstep : modelStep (some model) templates f =
      some { letter := M, score := ((1 - arr.getD idx 0 : ℝ) : WithTop ℝ) } := by
    simp [modelStep, hpred, hidx, hkey, hM]
  refine ⟨by simp [classify, hstep], (mathMax_mem arr idx hidx).2, ?_, ?_⟩
  · intro tf res h lms2
    simp [classify, h]
  · intro tf h
    cases tf with
    | none => exact Or.inl rfl
    | some m =>
      right
      cases hmf : m f with
      | none => exact Or.inl ⟨m, rfl, hmf⟩
      | some a =>
        refine Or.inr ⟨m, a, rfl, hmf, ?_⟩
        intro i hi
        simp only [modelStep, hmf, hi] at h
        cases hk : (sampleKeys templates)[i]? with
        | none => exact Or.inl rfl
        | some k =>
          right
          rw [hk] at h
          simp only at h
          by_cases hk0 : k = ""
          · rw [hk0]
          · simp [hk0] at h

/-! ## Concrete inputs -/

theorem indexOf_constModel : indexOf [0, 1] (mathMax [0, 1]) = some 1 := by
  simp [indexOf, mathMax, List.findIdx_cons]

theorem sampleKeys_storeAB : sampleKeys storeAB = ["A", "B"] := by
  simp [sampleKeys, storeAB, zeroVec]

theorem euclid_queryNear : euclid queryNear (meanVec [zeroVec]) = 0.4 := by
  simp [euclid, meanVec, queryNear, zeroVec, Finset.sum_range_succ, List.replicate, List.range_succ]
  exact Real.sqrt_sq (by norm_num)

theorem candidates_storeAB :
    candidates queryNear storeAB = [("A", 0.4), ("B", 0.4)] := by
  simp [candidates, storeAB, euclid_queryNear]

/-- Witness for C4: the query at distance 0.4 from the mean of the samples of A. -/
theorem classify_single_letter_witness :
    classify none storeA queryNear openHand =
      some { letter := "A", score := ((0.4 : ℝ) : WithTop ℝ) } := by
  rw [classify_single_letter storeA [zeroVec] queryNear openHand (by simp [storeA, zeroVec])
    (by simp [zeroVec]) (by simp [queryNear]) (rule_openHand queryNear (by simp [queryNear])),
    euclid_queryNear]
  norm_num

/-- Witness for C5: A and B are at the same distance, and A, the first of them, is returned. -/
theorem classify_nearest_first_min_witness :
    ∃ res, classify none storeAB queryNear openHand = some res ∧ res.letter = "A" := by
  obtain ⟨res, h1, ⟨i, hi, hscore, hmin, hfirst, hletter⟩, _⟩ :=
    classify_nearest_first_min none storeAB queryNear openHand
      (by simp [storeAB, zeroVec]) (by simp [queryNear]) ⟨("A", [zeroVec]), by simp [storeAB], by simp⟩
      rfl (rule_openHand queryNear (by simp [queryNear]))
  refine ⟨res, h1, ?_⟩
  revert hi hscore hmin hfirst hletter
  rw [candidates_storeAB]
  intro hi _ _ hfirst hletter
  have hi2 : i < 2 := hi
  interval_cases i
  · exact hletter (by norm_num)
  · exact absurd (hfirst 0 (by simp) (by norm_num)) (by simp)

/-- Witness for C7: the rule classifier says A, the model says B, and B is returned. -/
theorem classify_prefers_model_witness :
    ruleBasedClassify zeroVec zeroHand = some (some "A") ∧
    classify (some constModel) storeAB zeroVec zeroHand =
      some { letter := "B", score := ((1 - 1 : ℝ) : WithTop ℝ) } :=
  ⟨rule_zeroHand zeroVec (by simp [zeroVec]),
   (classify_prefers_model constModel storeAB zeroVec zeroHand [0, 1] 1 "B" "A" rfl
    indexOf_constModel (by simp [sampleKeys_storeAB]) (by decide)
    (rule_zeroHand zeroVec (by simp [zeroVec])) (by decide)).1⟩

/-- Witness for C8: the open hand scaled by 2. -/
theorem scale_invariant_witness :
    computeFeatures (scaleLandmarks 2 openHand) = computeFeatures openHand :=
  scale_invariant openHand 2 rfl (by norm_num) (by simp [openHand])

/-- Witness for C9: the hand with every landmark at the origin. -/
theorem feature_shape_witness :
    ∃ v, computeFeatures zeroHand = some v ∧ v.length = 18 := by
  obtain ⟨v, h1, h2, _⟩ := feature_shape zeroHand rfl
  exact ⟨v, h1, h2⟩

/-! ## `ruleBasedClassify`: claims C11, C12, C13 -/

theorem Reachable_ite (c : Prop) [Decidable c] (a b : Option (Option String)) (ha : Reachable a)
    (hb : Reachable b) : Reachable (if c then a else b) := by
  split <;> assumption

theorem Reachable_some (r : Option String) (h : r ∈ reachableResults) : Reachable (some r) :=
  ⟨r, rfl, h⟩

theorem rule_mem (f : List ℝ) (lms : List Landmark) (hlen : 21 ≤ lms.length) :
    Reachable (ruleBasedClassify f lms) := by
  have H : ∀ i, i < 21 → lms[i]? = some (lms.getD i ⟨0, 0, 0⟩) :=
    fun i hi => getElem?_of_lt lms i (by omega)
  by_cases hf : f.length < 18
  · exact ⟨none, by simp [ruleBasedClassify, hf], by simp [reachableResults]⟩
  simp only [ruleBasedClassify, hf, if_false, H, Nat.reduceLT, Option.pure_def, Option.bind_eq_bind,
    Option.some_bind]
  generalize isExtended _ (lms.getD 8 ⟨0, 0, 0⟩) (lms.getD 5 ⟨0, 0, 0⟩) = eI
  generalize isExtended _ (lms.getD 12 ⟨0, 0, 0⟩) (lms.getD 9 ⟨0, 0, 0⟩) = eM
  generalize isExtended _ (lms.getD 16 ⟨0, 0, 0⟩) (lms.getD 13 ⟨0, 0, 0⟩) = eR
  generalize isExtended _ (lms.getD 20 ⟨0, 0, 0⟩) (lms.getD 17 ⟨0, 0, 0⟩) = eP
  by_cases hI : eI <;> by_cases hM : eM <;> by_cases hR : eR <;> by_cases hP : eP <;>
    simp only [hI, hM, hR, hP, not_true_eq_false, not_false_eq_true, and_true, true_and,
      and_false, false_and, if_false, if_true, and_self] <;>
    repeat' (first
      | exact Reachable_some _ (by simp [reachableResults])
      | apply Reachable_ite)

/-- C13: for every list of 21 landmarks and any two feature vectors of length at least
18, `ruleBasedClassify` gives the same result on both: the result depends on the
landmarks only. -/
theorem rule_ignores_features (f1 f2 : List ℝ) (lms : List Landmark) (hlen : lms.length = 21)
    (h1 : 18 ≤ f1.length) (h2 : 18 ≤ f2.length) :
    ruleBasedClassify f1 lms = ruleBasedClassify f2 lms := by
  have H : ∀ i, i < 21 → lms[i]? = some (lms.getD i ⟨0, 0, 0⟩) :=
    fun i hi => getElem?_of_lt lms i (by omega)
  have hf1 : ¬ f1.length < 18 := by omega
  have hf2 : ¬ f2.length < 18 := by omega
  simp only [ruleBasedClassify, hf1, hf2, if_false, H, Nat.reduceLT, Option.pure_def,
    Option.bind_eq_bind, Option.some_bind]
  generalize isExtended _ (lms.getD 8 ⟨0, 0, 0⟩) (lms.getD 5 ⟨0, 0, 0⟩) = eI
  generalize isExtended _ (lms.getD 12 ⟨0, 0, 0⟩) (lms.getD 9 ⟨0, 0, 0⟩) = eM
  generalize isExtended _ (lms.getD 16 ⟨0, 0, 0⟩) (lms.getD 13 ⟨0, 0, 0⟩) = eR
  generalize isExtended _ (lms.getD 20 ⟨0, 0, 0⟩) (lms.getD 17 ⟨0, 0, 0⟩) = eP
  by_cases hI : eI <;> by_cases hM : eM <;> by_cases hR : eR <;> by_cases hP : eP <;>
    simp only [hI, hM, hR, hP, not_true_eq_false, not_false_eq_true, and_true, true_and,
      and_false, false_and, if_false, if_true, and_self]

theorem rule_by_flags (f : List ℝ) (lms : List Landmark) (hf : 18 ≤ f.length)
    (hlen : 21 ≤ lms.length) :
    (extendedIndex lms ∧ ¬extendedMiddle lms ∧ ¬extendedRing lms ∧ ¬extendedPinky lms →
      ruleBasedClassify f lms = some (some "D")) ∧
    (extendedPinky lms ∧ ¬extendedIndex lms ∧ ¬extendedMiddle lms ∧ ¬extendedRing lms →
      ruleBasedClassify f lms = some (some "I")) ∧
    (extendedIndex lms ∧ extendedMiddle lms ∧ ¬extendedRing lms ∧ ¬extendedPinky lms →
      ruleBasedClassify f lms = some (some "U") ∨ ruleBasedClassify f lms = some (some "V")) := by
  have H : ∀ i, i < 21 → lms[i]? = some (lms.getD i ⟨0, 0, 0⟩) :=
    fun i hi => getElem?_of_lt lms i (by omega)
  have hf2 : ¬ f.length < 18 := by omega
  simp only [ruleBasedClassify, hf2, if_false, H, Nat.reduceLT, Option.pure_def,
    Option.bind_eq_bind, Option.some_bind, extendedIndex, extendedMiddle, extendedRing,
    extendedPinky, handNorm]
  generalize isExtended _ (lms.getD 8 ⟨0, 0, 0⟩) (lms.getD 5 ⟨0, 0, 0⟩) = eI
  generalize isExtended _ (lms.getD 12 ⟨0, 0, 0⟩) (lms.getD 9 ⟨0, 0, 0⟩) = eM
  generalize isExtended _ (lms.getD 16 ⟨0, 0, 0⟩) (lms.getD 13 ⟨0, 0, 0⟩) = eR
  generalize isExtended _ (lms.getD 20 ⟨0, 0, 0⟩) (lms.getD 17 ⟨0, 0, 0⟩) = eP
  refine ⟨?_, ?_, ?_⟩
  · rintro ⟨hI, hM, hR, hP⟩
    simp only [hI, hM, hR, hP, not_true_eq_false, not_false_eq_true, and_true, true_and,
      and_false, false_and, if_false, if_true, and_self]
  · rintro ⟨hP, hI, hM, hR⟩
    simp only [hI, hM, hR, hP, not_true_eq_false, not_false_eq_true, and_true, true_and,
      and_false, false_and, if_false, if_true, and_self]
  · rintro ⟨hI, hM, hR, hP⟩
    simp only [hI, hM, hR, hP, not_true_eq_false, not_false_eq_true, and_true, true_and,
      and_false, false_and, if_false, if_true, and_self]
    split
    · exact Or.inl rfl
    · exact Or.inr rfl

theorem lPoseHand_flags :
    extendedIndex lPoseHand ∧ ¬extendedMiddle lPoseHand ∧ ¬extendedRing lPoseHand ∧
      ¬extendedPinky lPoseHand := by
  simp [extendedIndex, extendedMiddle, extendedRing, extendedPinky, handNorm, isExtended,
    lPoseHand, dist, hypot3_x, orEps]
  norm_num

/-- C11 fails on the code: on the hand `lPoseHand` with its own feature vector, the index
finger is extended, feature 0 exceeds 0.55, the middle, ring and pinky fingers are not
extended, and `ruleBasedClassify` returns D (line 284) where the claim says L. -/
theorem L_pose_classified_D :
    ∃ v, computeFeatures lPoseHand = some v ∧ v.length = 18 ∧ v.getD 0 0 > 0.55 ∧
      (extendedIndex lPoseHand ∧ ¬extendedMiddle lPoseHand ∧ ¬extendedRing lPoseHand ∧
        ¬extendedPinky lPoseHand) ∧
      ruleBasedClassify v lPoseHand = some (some "D") := by
  refine ⟨_, computeFeatures_eq lPoseHand (by decide), rfl, ?_, lPoseHand_flags, ?_⟩
  · simp [featureList, lPoseHand, dist, hypot3_x, orEps]
    norm_num
  · exact (rule_by_flags _ lPoseHand (by simp [featureList]) (by decide)).1 lPoseHand_flags

/-- C12: for every feature vector and every list of 21 landmarks `ruleBasedClassify`
returns `null` or one of the sixteen letters A, S, T, M, N, E, D, I, U, V, W, O, C, F, R,
X, never L, Y, K, P or Q: on the finger pattern of L and Q it returns D, on that of Y it
returns I, on that of K and P it returns U or V. -/
theorem rule_result_range (f : List ℝ) (lms : List Landmark) (hlen : lms.length = 21) :
    ∃ r, ruleBasedClassify f lms = some r ∧ r ∈ reachableResults ∧
      r ∉ [some "L", some "Y", some "K", some "P", some "Q"] ∧
      (18 ≤ f.length →
        (extendedIndex lms ∧ ¬extendedMiddle lms ∧ ¬extendedRing lms ∧ ¬extendedPinky lms →
          r = some "D") ∧
        (extendedPinky lms ∧ ¬extendedIndex lms ∧ ¬extendedMiddle lms ∧ ¬extendedRing lms →
          r = some "I") ∧
        (extendedIndex lms ∧ extendedMiddle lms ∧ ¬extendedRing lms ∧ ¬extendedPinky lms →
          r = some "U" ∨ r = some "V")) := by
  obtain ⟨r, hr, hmem⟩ := rule_mem f lms (by omega)
  have hdead : ∀ x ∈ reachableResults,
      x ∉ [some "L", some "Y", some "K", some "P", some "Q"] := by decide
  refine ⟨r, hr, hmem, hdead r hmem, ?_⟩
  intro hf
  obtain ⟨hD, hI, hUV⟩ := rule_by_flags f lms hf (by omega)
  rw [hr] at hD hI hUV
  refine ⟨fun h => Option.some.inj (hD h), fun h => Option.some.inj (hI h), fun h => ?_⟩
  rcases hUV h with h1 | h1
  · exact Or.inl (Option.some.inj h1)
  · exact Or.inr (Option.some.inj h1)

/-- Witness for C12: the hand in the pose of L, on which the result is D. -/
theorem rule_result_range_witness :
    ∃ r, ruleBasedClassify thumbOutVec lPoseHand = some r ∧ r ∈ reachableResults := by
  obtain ⟨r, hr, hmem, _⟩ := rule_result_range thumbOutVec lPoseHand rfl
  exact ⟨r, hr, hmem⟩

/-- Witness for C13: on the hand in the pose of L the result is the same with the thumb
feature at 0 and at 0.9. -/
theorem rule_ignores_features_witness :
    ruleBasedClassify zeroVec lPoseHand = ruleBasedClassify thumbOutVec lPoseHand :=
  rule_ignores_features zeroVec thumbOutVec lPoseHand rfl (by simp [zeroVec])
    (by simp [thumbOutVec])

/-! ## Seeded templates: claim C14 -/

theorem seeded_length : seededTemplates.length = 26 := rfl

theorem seeded_letters : seededTemplates.map Prod.fst =
    ["A", "B", "C", "D", "E", "F", "G", "H", "I", "J", "K", "L", "M", "N", "O", "P", "Q", "R",
     "S", "T", "U", "V", "W", "X", "Y", "Z"] := rfl

theorem seeded_nodup : (seededTemplates.map Prod.fst).Nodup := by
  rw [seeded_letters]; decide

theorem seeded_samples (e : String × List (List ℝ)) (he : e ∈ seededTemplates) :
    e.2.length ≠ 0 ∧ ∀ s ∈ e.2, s.length = 18 := by
  simp only [seededTemplates, List.mem_cons, List.mem_singleton, List.not_mem_nil, or_false] at he
  rcases he with h | h | h | h | h | h | h | h | h | h | h | h | h | h | h | h | h | h | h | h |
    h | h | h | h | h | h <;> subst h <;> simp


theorem candidates_of_nonempty (f : List ℝ) (templates : Templates)
    (hne : ∀ e ∈ templates, e.2.length ≠ 0) :
    candidates f templates = templates.map (fun e => (e.1, euclid f (meanVec e.2))) := by
  unfold candidates
  rw [List.filter_eq_self.2 (fun e he => by simpa using hne e he)]

/-- A letter whose samples equal those of an earlier letter is never the best one. -/
theorem nnBest_letter_ne (f : List ℝ) (templates : Templates)
    (hs : ∀ e ∈ templates, e.2.length ≠ 0 ∧ ∀ s ∈ e.2, s.length = 18)
    (hnodup : (templates.map Prod.fst).Nodup) (j k : Nat) (hjk : j < k)
    (hk : k < templates.length)
    (heq : (templates.get ⟨j, lt_trans hjk hk⟩).2 = (templates.get ⟨k, hk⟩).2) :
    (nnBest f templates).letter ≠ (templates.get ⟨k, hk⟩).1 := by
  have hc := candidates_of_nonempty f templates (fun e he => (hs e he).1)
  have hcne : candidates f templates ≠ [] := by
    rw [hc]
    intro h
    rw [List.map_eq_nil_iff] at h
    rw [h] at hk
    exact Nat.not_lt_zero _ hk
  obtain ⟨i, hi, hfold, hmin, hfirst⟩ := foldl_pickStep_spec (candidates f templates) hcne
  rw [nnBest_eq f templates (fun e he => (hs e he).2), hfold]
  clear hfold hmin
  revert hi hfirst
  rw [hc]
  intro hi hfirst hletter
  have hi2 : i < templates.length := by simpa using hi
  simp only [List.get_eq_getElem, List.getElem_map] at hletter hfirst
  have hik : i = k := by
    have hi3 : i < (templates.map Prod.fst).length := by simpa using hi2
    have hk3 : k < (templates.map Prod.fst).length := by simpa using hk
    have h1 : (templates.map Prod.fst)[i] = (templates.map Prod.fst)[k] := by
      simp only [List.getElem_map]
      exact hletter
    exact (List.Nodup.getElem_inj_iff hnodup).1 h1
  subst hik
  have := hfirst j (by simpa using lt_trans hjk hk) hjk
  simp only [List.get_eq_getElem] at heq
  rw [heq] at this
  exact lt_irrefl _ this

theorem nearest_letter (f : List ℝ) (templates : Templates) :
    (nearest f templates).letter = "?" ∨
      (nearest f templates).letter = (nnBest f templates).letter := by
  unfold nearest
  simp only
  split
  · exact Or.inl rfl
  · exact Or.inr rfl

/-- C14: with the seeded templates as the store, for every 18-element feature vector on
which the nearest-neighbour step of `classify` is reached, the returned letter is none of
J, N, P, Q, S, T: each of them has the samples of a letter inserted earlier. -/
theorem seeded_duplicates_never_returned (tf : Option TfModel) (f : List ℝ)
    (lms : List Landmark) (_hf : f.length = 18)
    (hm : modelStep tf seededTemplates f = none)
    (hr : ruleBasedClassify f lms = some none) :
    ∃ res, classify tf seededTemplates f lms = some res ∧
      res.letter ∉ ["J", "N", "P", "Q", "S", "T"] := by
  refine ⟨nearest f seededTemplates, classify_of_rule_none tf seededTemplates f lms hm hr, ?_⟩
  have hJ := nnBest_letter_ne f seededTemplates seeded_samples seeded_nodup 8 9 (by decide)
    (by decide) rfl
  have hN := nnBest_letter_ne f seededTemplates seeded_samples seeded_nodup 12 13 (by decide)
    (by decide) rfl
  have hP := nnBest_letter_ne f seededTemplates seeded_samples seeded_nodup 10 15 (by decide)
    (by decide) rfl
  have hQ := nnBest_letter_ne f seededTemplates seeded_samples seeded_nodup 6 16 (by decide)
    (by decide) rfl
  have hS := nnBest_letter_ne f seededTemplates seeded_samples seeded_nodup 0 18 (by decide)
    (by decide) rfl
  have hT := nnBest_letter_ne f seededTemplates seeded_samples seeded_nodup 12 19 (by decide)
    (by decide) rfl
  have eJ : (seededTemplates.get ⟨9, by decide⟩).1 = "J" := rfl
  have eN : (seededTemplates.get ⟨13, by decide⟩).1 = "N" := rfl
  have eP : (seededTemplates.get ⟨15, by decide⟩).1 = "P" := rfl
  have eQ : (seededTemplates.get ⟨16, by decide⟩).1 = "Q" := rfl
  have eS : (seededTemplates.get ⟨18, by decide⟩).1 = "S" := rfl
  have eT : (seededTemplates.get ⟨19, by decide⟩).1 = "T" := rfl
  rw [eJ] at hJ; rw [eN] at hN; rw [eP] at hP; rw [eQ] at hQ; rw [eS] at hS; rw [eT] at hT
  rcases nearest_letter f seededTemplates with h | h
  · rw [h]; decide
  · rw [h]
    simp only [List.mem_cons, List.mem_singleton, List.not_mem_nil, or_false, not_or]
    exact ⟨hJ, hN, hP, hQ, hS, hT⟩

/-- Witness for C14: the open hand with the query vector `queryNear`. -/
theorem seeded_duplicates_never_returned_witness :
    ∃ res, classify none seededTemplates queryNear openHand = some res ∧
      res.letter ∉ ["J", "N", "P", "Q", "S", "T"] :=
  seeded_duplicates_never_returned none queryNear openHand (by simp [queryNear]) rfl
    (rule_openHand queryNear (by simp [queryNear]))

end

end HandyAI
